import Mathlib

/-!
Verification of the SmartRetail-AI recommendation / segmentation / forecasting
engine design and of the frontend API client's 401-refresh interceptor.

The ML engine itself is not present in the repository source (only its API
contracts and UI stubs are), so the engine definitions below are modelled from
the design specification's words.  The API-client interceptor is embedded from
src/frontend/src/lib/api.ts.
-/

set_option allowUnsafeReducibility true

set_option maxRecDepth 100000

attribute [semireducible] Rat.mul Rat.inv Rat.add Rat.sub Rat.ofScientific

deriving instance DecidableEq for Except

namespace SmartRetail

abbrev ItemId := Nat
abbrev UserId := Nat
abbrev Score := ℚ

/-- Modelled from the spec: InteractionEvent data model — (user_id, item_id,
event_type ∈ {view, cart, purchase, rating}, weight, timestamp). -/
inductive EventType
  | view
  | cart
  | purchase
  | rating
deriving DecidableEq

/-- Modelled from the spec: an immutable user-item interaction event. -/
structure InteractionEvent where
  user_id : UserId
  item_id : ItemId
  event_type : EventType
  weight : ℚ
  timestamp : Nat
deriving DecidableEq

/-- Ranking order on scored items: descending by score, ties broken by
item_id ascending.  `recOrd a b` says `a` may come before `b`. -/
def recOrd (a b : ItemId × Score) : Prop :=
  b.2 < a.2 ∨ (a.2 = b.2 ∧ a.1 ≤ b.1)

instance recOrd.decidableRel : DecidableRel recOrd := fun a b =>
  inferInstanceAs (Decidable (b.2 < a.2 ∨ (a.2 = b.2 ∧ a.1 ≤ b.1)))

instance recOrd.isTotal : IsTotal (ItemId × Score) recOrd := by
  constructor
  intro a b
  rcases lt_trichotomy a.2 b.2 with h | h | h
  · exact Or.inr (Or.inl h)
  · rcases le_total a.1 b.1 with hi | hi
    · exact Or.inl (Or.inr ⟨h, hi⟩)
    · exact Or.inr (Or.inr ⟨h.symm, hi⟩)
  · exact Or.inl (Or.inl h)

instance recOrd.isTrans : IsTrans (ItemId × Score) recOrd := by
  constructor
  rintro a b c (h1 | ⟨h1e, h1i⟩) (h2 | ⟨h2e, h2i⟩)
  · exact Or.inl (h2.trans h1)
  · exact Or.inl (h2e ▸ h1)
  · exact Or.inl (h1e ▸ h2)
  · exact Or.inr ⟨h1e.trans h2e, h1i.trans h2i⟩

/-- Modelled from the spec: the shared ranking step — deduplicate candidate
ids, attach scores, and sort descending by score with an ascending item_id
tie-break. -/
def rankItems (score : ItemId → Score) (ids : List ItemId) : List (ItemId × Score) :=
  List.insertionSort recOrd ((ids.dedup).map (fun i => (i, score i)))

/-- Well-formedness of an output recommendation list per the spec invariant:
scores in [0,1], deduplicated by item_id, sorted descending by score with
ascending item_id tie-break. -/
def ScoredListOK (l : List (ItemId × Score)) : Prop :=
  (∀ p ∈ l, 0 ≤ p.2 ∧ p.2 ≤ 1) ∧ (l.map Prod.fst).Nodup ∧ l.Sorted recOrd

theorem rankItems_perm (score : ItemId → Score) (ids : List ItemId) :
    List.Perm (rankItems score ids) ((ids.dedup).map (fun i => (i, score i))) :=
  List.perm_insertionSort _ _

theorem mem_rankItems {score : ItemId → Score} {ids : List ItemId}
    {p : ItemId × Score} (hp : p ∈ rankItems score ids) :
    p.1 ∈ ids ∧ p.2 = score p.1 := by
  have h := (rankItems_perm score ids).mem_iff.mp hp
  rcases List.mem_map.mp h with ⟨i, hi, he⟩
  cases he
  exact ⟨List.mem_dedup.mp hi, rfl⟩

theorem rankItems_sorted (score : ItemId → Score) (ids : List ItemId) :
    (rankItems score ids).Sorted recOrd :=
  List.sorted_insertionSort _ _

theorem rankItems_nodup (score : ItemId → Score) (ids : List ItemId) :
    ((rankItems score ids).map Prod.fst).Nodup := by
  have hperm : List.Perm ((rankItems score ids).map Prod.fst)
      (((ids.dedup).map (fun i => (i, score i))).map Prod.fst) :=
    (rankItems_perm score ids).map _
  rw [hperm.nodup_iff]
  rw [List.map_map]
  have : (Prod.fst ∘ fun i => (i, score i)) = id := rfl
  rw [this, List.map_id]
  exact ids.nodup_dedup

theorem rankItems_length (score : ItemId → Score) (ids : List ItemId) :
    (rankItems score ids).length = ids.dedup.length := by
  have := (rankItems_perm score ids).length_eq
  simpa using this

theorem scoredListOK_rankItems {score : ItemId → Score} {ids : List ItemId}
    (hb : ∀ i ∈ ids, 0 ≤ score i ∧ score i ≤ 1) :
    ScoredListOK (rankItems score ids) := by
  refine ⟨?_, rankItems_nodup score ids, rankItems_sorted score ids⟩
  intro p hp
  rcases mem_rankItems hp with ⟨hmem, hsc⟩
  rw [hsc]
  exact hb _ hmem

theorem scoredListOK_sublist {l l' : List (ItemId × Score)}
    (hs : List.Sublist l' l) (h : ScoredListOK l) : ScoredListOK l' := by
  obtain ⟨hb, hn, hd⟩ := h
  exact ⟨fun p hp => hb p (hs.mem hp), hn.sublist (hs.map _), hd.sublist hs⟩

theorem scoredListOK_take {l : List (ItemId × Score)} (n : Nat)
    (h : ScoredListOK l) : ScoredListOK (l.take n) :=
  scoredListOK_sublist (List.take_sublist n l) h

theorem scoredListOK_filter {l : List (ItemId × Score)}
    (p : ItemId × Score → Bool) (h : ScoredListOK l) :
    ScoredListOK (l.filter p) :=
  scoredListOK_sublist (List.filter_sublist l) h

/-- Modelled from the spec: dot product of two vectors indexed by a finite
set of coordinates. -/
def dotF (s : Finset Nat) (f g : Nat → ℚ) : ℚ := ∑ i ∈ s, f i * g i

/-- Modelled from the spec: squared-cosine similarity over weighted vectors;
a similarity measure in [0,1] of the kind the spec mandates for the
Similarity Index (the spec offers cosine as one example). -/
def cosineSq (s : Finset Nat) (f g : Nat → ℚ) : ℚ :=
  let den := dotF s f f * dotF s g g
  if den = 0 then 0 else (dotF s f g) ^ 2 / den

theorem dotF_self_nonneg (s : Finset Nat) (f : Nat → ℚ) : 0 ≤ dotF s f f :=
  Finset.sum_nonneg (fun i _ => mul_self_nonneg (f i))

theorem cosineSq_nonneg (s : Finset Nat) (f g : Nat → ℚ) :
    0 ≤ cosineSq s f g := by
  unfold cosineSq
  by_cases h : dotF s f f * dotF s g g = 0
  · simp [h]
  · simp only [h, if_false]
    have hden : 0 ≤ dotF s f f * dotF s g g :=
      mul_nonneg (dotF_self_nonneg s f) (dotF_self_nonneg s g)
    exact div_nonneg (sq_nonneg _) hden

theorem cosineSq_le_one (s : Finset Nat) (f g : Nat → ℚ) :
    cosineSq s f g ≤ 1 := by
  unfold cosineSq
  by_cases h : dotF s f f * dotF s g g = 0
  · simp [h]
  · simp only [h, if_false]
    have hden : 0 ≤ dotF s f f * dotF s g g :=
      mul_nonneg (dotF_self_nonneg s f) (dotF_self_nonneg s g)
    have hpos : 0 < dotF s f f * dotF s g g := lt_of_le_of_ne hden (Ne.symm h)
    rw [div_le_one hpos]
    have hcs := Finset.sum_mul_sq_le_sq_mul_sq s f g
    calc (dotF s f g) ^ 2 ≤ (∑ i ∈ s, f i ^ 2) * ∑ i ∈ s, g i ^ 2 := hcs
      _ = dotF s f f * dotF s g g := by
          unfold dotF
          congr 1
          · exact Finset.sum_congr rfl (fun i _ => sq (f i))
          · exact Finset.sum_congr rfl (fun i _ => sq (g i))

/-- Fold giving the maximum of a list of scores, with 0 as the floor. -/
def maxScore (l : List ℚ) : ℚ := l.foldr max 0

theorem maxScore_nonneg (l : List ℚ) : 0 ≤ maxScore l := by
  induction l with
  | nil => simp [maxScore]
  | cons a t ih => simp only [maxScore, List.foldr] at *; exact le_max_of_le_right ih

theorem maxScore_le_one {l : List ℚ} (h : ∀ x ∈ l, x ≤ 1) : maxScore l ≤ 1 := by
  induction l with
  | nil => simp [maxScore]
  | cons a t ih =>
      simp only [maxScore, List.foldr] at *
      exact max_le (h a (List.mem_cons_self a t)) (ih (fun x hx => h x (List.mem_cons_of_mem a hx)))

theorem combined_bounds {α c s : ℚ} (hα0 : 0 ≤ α) (hα1 : α ≤ 1)
    (hc0 : 0 ≤ c) (hc1 : c ≤ 1) (hs0 : 0 ≤ s) (hs1 : s ≤ 1) :
    0 ≤ α * c + (1 - α) * s ∧ α * c + (1 - α) * s ≤ 1 := by
  constructor
  · have h1 : 0 ≤ α * c := mul_nonneg hα0 hc0
    have h2 : 0 ≤ (1 - α) * s := mul_nonneg (by linarith) hs0
    linarith
  · have h1 : α * c ≤ α := by nlinarith
    have h2 : (1 - α) * s ≤ 1 - α := by nlinarith
    linarith

/-- Nonnegative / bounded-by-one quotient: num / den ∈ [0,1] when
0 ≤ num ≤ den (division by zero yields zero in ℚ). -/
theorem div_bounds {num den : ℚ} (h0 : 0 ≤ num) (h1 : num ≤ den) :
    0 ≤ num / den ∧ num / den ≤ 1 := by
  by_cases h : den = 0
  · subst h
    have : num = 0 := le_antisymm h1 h0
    simp [this]
  · have hd : 0 < den := lt_of_le_of_ne (h0.trans h1) (Ne.symm h)
    exact ⟨div_nonneg h0 hd.le, (div_le_one hd).mpr h1⟩

/-- Modelled from the spec: configuration of the recommendation engine —
blend weight α (default 0.6), top-K neighbor retention (default 50), minimum
interactions per indexed entity (default 2), lookback and purchase-exclusion
windows, limit defaults (10) and cap (100), trending half-life (7 days). -/
structure RecConfig where
  alpha : ℚ
  topK : Nat
  minInteractions : Nat
  lookbackWindow : Nat
  exclusionWindow : Nat
  defaultLimit : Nat
  maxLimit : Nat
  halfLife : Nat

def defaultRecConfig : RecConfig :=
  { alpha := 6/10, topK := 50, minInteractions := 2, lookbackWindow := 90,
    exclusionWindow := 30, defaultLimit := 10, maxLimit := 100, halfLife := 7 }

/-- Validated configuration ranges (spec: explicit configuration structs with
validated ranges; α is a convex blend weight; the purchase-exclusion window
does not exceed the interaction lookback window). -/
def WfConfig (cfg : RecConfig) : Prop :=
  0 ≤ cfg.alpha ∧ cfg.alpha ≤ 1 ∧ cfg.exclusionWindow ≤ cfg.lookbackWindow ∧
    0 < cfg.defaultLimit ∧ 0 < cfg.maxLimit

instance (cfg : RecConfig) : Decidable (WfConfig cfg) :=
  inferInstanceAs (Decidable (_ ∧ _ ∧ _ ∧ _ ∧ _))

/-- Modelled from the spec: the engine's read-only view of its collaborators —
the interaction store (events), the catalog adapter (active item ids), the
per-item content-feature vectors, and the as-of time in days. -/
structure Env where
  events : List InteractionEvent
  catalog : List ItemId
  features : ItemId → Nat → ℚ
  featCount : Nat
  now : Nat

/-- Events within `window` days of now (truncated Nat subtraction). -/
def recentEvents (env : Env) (window : Nat) : List InteractionEvent :=
  env.events.filter (fun e => env.now - e.timestamp ≤ window)

/-- Weighted interaction vector of an item over users, from lookback events. -/
def itemColumn (env : Env) (cfg : RecConfig) (i : ItemId) (u : UserId) : ℚ :=
  (((recentEvents env cfg.lookbackWindow).filter
      (fun e => e.item_id = i ∧ e.user_id = u)).map (fun e => e.weight)).sum

/-- Users appearing in lookback events, as the coordinate set for
collaborative similarity. -/
def activeUsers (env : Env) (cfg : RecConfig) : Finset UserId :=
  ((recentEvents env cfg.lookbackWindow).map (fun e => e.user_id)).toFinset

/-- Modelled from the spec: collaborative item-item similarity — squared
cosine over weighted interaction vectors. -/
def collabSim (env : Env) (cfg : RecConfig) (i j : ItemId) : Score :=
  cosineSq (activeUsers env cfg) (itemColumn env cfg i) (itemColumn env cfg j)

/-- Modelled from the spec: content item-item similarity — squared cosine
over content-feature vectors. -/
def contentSim (env : Env) (i j : ItemId) : Score :=
  cosineSq (Finset.range env.featCount) (env.features i) (env.features j)

/-- Number of lookback interactions touching an item. -/
def interactionCount (env : Env) (cfg : RecConfig) (i : ItemId) : Nat :=
  ((recentEvents env cfg.lookbackWindow).filter (fun e => e.item_id = i)).length

/-- Modelled from the spec: top-K neighbor list of `i` from candidate pool
`pool`, ranked descending by similarity (never containing `i` itself). -/
def topNeighbors (cfg : RecConfig) (sim : ItemId → ItemId → Score)
    (pool : List ItemId) (i : ItemId) : List (ItemId × Score) :=
  (rankItems (sim i) (pool.filter (fun j => j ≠ i))).take cfg.topK

/-- Modelled from the spec: the Similarity Index — per-item top-K neighbor
lists for the collaborative and the content signal. -/
structure SimIndex where
  collab : List (ItemId × List (ItemId × Score))
  content : List (ItemId × List (ItemId × Score))

/-- Catalog items with at least the configured minimum number of
interactions; only they enter the collaborative index. -/
def eligibleItems (cfg : RecConfig) (env : Env) : List ItemId :=
  env.catalog.dedup.filter (fun i => cfg.minInteractions ≤ interactionCount env cfg i)

/-- Modelled from the spec: `build(interactions, item_profiles)` — items with
fewer than the configured minimum number of interactions are excluded from
the collaborative index; the content index covers the whole catalog. -/
def build (cfg : RecConfig) (env : Env) : SimIndex :=
  { collab := (eligibleItems cfg env).map
      (fun i => (i, topNeighbors cfg (collabSim env cfg) (eligibleItems cfg env) i))
  , content := env.catalog.dedup.map
      (fun i => (i, topNeighbors cfg (contentSim env) env.catalog.dedup i)) }

/-- Stored neighbor list of an entity, empty when the entity is absent. -/
def lookupNbrs (m : List (ItemId × List (ItemId × Score))) (i : ItemId) :
    List (ItemId × Score) :=
  match m.find? (fun p => p.1 == i) with
  | some p => p.2
  | none => []

/-- Modelled from the spec: `neighbors(entity_id, k)` — at most k entries,
descending score, empty sequence (not an error) if the entity is absent. -/
def neighbors (idx : SimIndex) (i : ItemId) (k : Nat) : List (ItemId × Score) :=
  (lookupNbrs idx.collab i).take k

/-- Score of `i` in a stored neighbor list, 0 when absent. -/
def getScore (l : List (ItemId × Score)) (i : ItemId) : Score :=
  match l.find? (fun p => p.1 == i) with
  | some p => p.2
  | none => 0

/-- Modelled from the spec: error taxonomy of the engine boundary. -/
inductive MlError
  | NotFoundError
  | InsufficientDataError
  | InsufficientHistoryError
  | InvalidHorizonError
  | ModelUnavailableError
deriving DecidableEq

/-- Effective result size: limit defaults to `defaultLimit` when 0 and is
capped at `maxLimit` (spec: limit default 10, max 100, validated ranges). -/
def effLimit (cfg : RecConfig) (limit : Nat) : Nat :=
  if limit = 0 then cfg.defaultLimit else min limit cfg.maxLimit

/-- Modelled from the spec: global popularity score of an item — its share of
all recorded interaction events, a value in [0,1]. -/
def popularityScore (env : Env) (i : ItemId) : Score :=
  ((env.events.filter (fun e => e.item_id = i)).length : ℚ) / (env.events.length : ℚ)

/-- Modelled from the spec: the global popularity ranking over the catalog. -/
def popularityList (env : Env) : List (ItemId × Score) :=
  rankItems (popularityScore env) env.catalog

/-- Exponential time decay with the configured half-life (day-granular). -/
def decay (cfg : RecConfig) (age : Nat) : ℚ := (1/2 : ℚ) ^ (age / cfg.halfLife)

/-- Modelled from the spec: time-decayed popularity of an item over the
rolling lookback window, normalized to [0,1]. -/
def trendingScore (cfg : RecConfig) (env : Env) (i : ItemId) : Score :=
  let l := recentEvents env cfg.lookbackWindow
  (((l.filter (fun e => e.item_id = i)).map
      (fun e => decay cfg (env.now - e.timestamp))).sum) /
    ((l.map (fun e => decay cfg (env.now - e.timestamp))).sum)

/-- Modelled from the spec: `trending(limit)` — time-decayed popularity over
a rolling window, independent of any single user. -/
def trending (cfg : RecConfig) (env : Env) (limit : Nat) : List (ItemId × Score) :=
  (rankItems (trendingScore cfg env) env.catalog).take (effLimit cfg limit)

/-- Items the user purchased within the exclusion window. -/
def purchasedInWindow (cfg : RecConfig) (env : Env) (u : UserId) : List ItemId :=
  (((recentEvents env cfg.exclusionWindow).filter
      (fun e => e.user_id = u ∧ e.event_type = EventType.purchase)).map
    (fun e => e.item_id))

/-- A user has usable history when some interaction of theirs lies within the
lookback window. -/
def usableHistory (cfg : RecConfig) (env : Env) (u : UserId) : Bool :=
  (recentEvents env cfg.lookbackWindow).any (fun e => e.user_id == u)

/-- Items the user interacted with inside the lookback window. -/
def userItems (cfg : RecConfig) (env : Env) (u : UserId) : List ItemId :=
  (((recentEvents env cfg.lookbackWindow).filter (fun e => e.user_id = u)).map
    (fun e => e.item_id)).dedup

/-- Collaborative score of a candidate: best stored similarity from any of
the user's items. -/
def collabScore (idx : SimIndex) (items : List ItemId) (c : ItemId) : Score :=
  maxScore (items.map (fun j => getScore (lookupNbrs idx.collab j) c))

/-- Content score of a candidate: best stored content similarity from any of
the user's recently interacted items. -/
def contentScore (idx : SimIndex) (items : List ItemId) (c : ItemId) : Score :=
  maxScore (items.map (fun j => getScore (lookupNbrs idx.content j) c))

/-- Modelled from the spec: blended candidate score
α * collaborative + (1 − α) * content. -/
def combinedScore (cfg : RecConfig) (idx : SimIndex) (items : List ItemId)
    (c : ItemId) : Score :=
  cfg.alpha * collabScore idx items c + (1 - cfg.alpha) * contentScore idx items c

/-- Candidate item ids for a user: neighbors of the user's items under both
signals. -/
def candidateIds (idx : SimIndex) (items : List ItemId) : List ItemId :=
  items.flatMap (fun j => (lookupNbrs idx.collab j).map Prod.fst) ++
    items.flatMap (fun j => (lookupNbrs idx.content j).map Prod.fst)

/-- Modelled from the spec: `forUser(user_id, limit)` — collaborative and
content candidates merged under the blended score for users with usable
history; global popularity fallback for unknown users or users without usable
history; items purchased within the exclusion window removed; truncation to
the effective limit. -/
def forUser (cfg : RecConfig) (env : Env) (u : UserId) (limit : Nat) :
    List (ItemId × Score) :=
  let excluded := purchasedInWindow cfg env u
  let base :=
    if usableHistory cfg env u then
      let idx := build cfg env
      let items := userItems cfg env u
      rankItems (combinedScore cfg idx items) (candidateIds idx items)
    else popularityList env
  (base.filter (fun p => decide (p.1 ∉ excluded))).take (effLimit cfg limit)

/-- A recommendation as delivered to the API layer: item, score, optional
human-readable reason. -/
structure Recommendation where
  item_id : ItemId
  score : Score
  reason : Option String
deriving DecidableEq

/-- Modelled from the spec: the reason attached when `include_reasons` is
true, derived from the dominant signal. -/
def reasonFor (cfg : RecConfig) (env : Env) (u : UserId) (i : ItemId) : String :=
  if usableHistory cfg env u then
    let idx := build cfg env
    let items := userItems cfg env u
    if contentScore idx items i ≤ collabScore idx items i then
      "similar to items you viewed"
    else "based on your preferences"
  else "popular right now"

/-- Modelled from the spec: `forUser(user_id, limit, include_reasons)` —
the ranked list with reasons attached when requested. -/
def forUserWithReasons (cfg : RecConfig) (env : Env) (u : UserId) (limit : Nat)
    (include_reasons : Bool) : List Recommendation :=
  (forUser cfg env u limit).map (fun p =>
    { item_id := p.1, score := p.2,
      reason := if include_reasons then some (reasonFor cfg env u p.1) else none })

/-- Modelled from the spec: `similarTo(item_id, limit)` — fails with
NotFoundError when the item is not in the catalog; otherwise a neighbor
lookup on the Similarity Index blending both signals. -/
def similarTo (cfg : RecConfig) (env : Env) (i : ItemId) (limit : Nat) :
    Except MlError (List (ItemId × Score)) :=
  if i ∈ env.catalog then
    let idx := build cfg env
    let cands := (lookupNbrs idx.collab i).map Prod.fst ++
      (lookupNbrs idx.content i).map Prod.fst
    let score := fun c => cfg.alpha * getScore (lookupNbrs idx.collab i) c +
      (1 - cfg.alpha) * getScore (lookupNbrs idx.content i) c
    .ok ((rankItems score cands).take (effLimit cfg limit))
  else .error .NotFoundError

/-! ### Forecasting engine -/

/-- Modelled from the spec: forecasting configuration — minimum history
length (default 30 days) and maximum horizon (default 90 days). -/
structure ForecastConfig where
  minHistory : Nat
  maxHorizon : Nat

def defaultForecastConfig : ForecastConfig := { minHistory := 30, maxHorizon := 90 }

/-- A point of a ForecastSeries: day index, predicted demand (≥ 0), and a
confidence interval derived from residual spread. -/
structure ForecastPoint where
  day : Nat
  predicted_demand : ℚ
  lo : ℚ
  hi : ℚ
deriving DecidableEq

/-- Least-squares slope of the daily demand history over day indices. -/
def fitSlope (h : List ℚ) : ℚ :=
  let n : ℚ := h.length
  let sx : ℚ := ∑ i ∈ Finset.range h.length, (i : ℚ)
  let sy := h.sum
  let sxx : ℚ := ∑ i ∈ Finset.range h.length, (i : ℚ) ^ 2
  let sxy : ℚ := ∑ i ∈ Finset.range h.length, (i : ℚ) * h.getD i 0
  let den := n * sxx - sx ^ 2
  if den = 0 then 0 else (n * sxy - sx * sy) / den

/-- Least-squares intercept of the daily demand history. -/
def fitIntercept (h : List ℚ) : ℚ :=
  if h.length = 0 then 0
  else (h.sum - fitSlope h * (∑ i ∈ Finset.range h.length, (i : ℚ))) / (h.length : ℚ)

/-- Residual of the trend fit at day `t`. -/
def residual (h : List ℚ) (t : Nat) : ℚ :=
  h.getD t 0 - (fitIntercept h + fitSlope h * (t : ℚ))

/-- Modelled from the spec: weekly seasonal component — mean trend residual
per weekday. -/
def seasonalComp (h : List ℚ) (w : Nat) : ℚ :=
  let ts := (List.range h.length).filter (fun t => t % 7 = w)
  ((ts.map (residual h)).sum) / (ts.length : ℚ)

/-- Mean absolute residual, used as the confidence-interval half-width. -/
def residWidth (h : List ℚ) : ℚ :=
  (((List.range h.length).map (fun t => |residual h t|)).sum) / (h.length : ℚ)

/-- Modelled from the spec: the projected series — explicit trend plus weekly
seasonal component, values clamped to ≥ 0. -/
def forecastSeries (h : List ℚ) (horizon : Nat) : List ForecastPoint :=
  (List.range horizon).map (fun d =>
    let t := h.length + d
    let p := fitIntercept h + fitSlope h * (t : ℚ) + seasonalComp h (t % 7)
    let w := residWidth h
    { day := t, predicted_demand := max 0 p, lo := max 0 (p - w), hi := max 0 p + w })

/-- Modelled from the spec: `forecast(product_id, horizon_days)` — horizon
validation at the engine boundary (above the configured maximum fails with
InvalidHorizonError); a zero horizon yields an empty series; a history
shorter than the configured minimum fails with InsufficientHistoryError. -/
def forecast (cfg : ForecastConfig) (history : List ℚ) (_product_id : Nat)
    (horizon_days : Nat) : Except MlError (List ForecastPoint) :=
  if cfg.maxHorizon < horizon_days then .error .InvalidHorizonError
  else if horizon_days = 0 then .ok []
  else if history.length < cfg.minHistory then .error .InsufficientHistoryError
  else .ok (forecastSeries history horizon_days)

/-! ### Segmentation engine -/

/-- Modelled from the spec: RFMRecord — customer id, recency in days,
purchase frequency, monetary total, 3-digit RFM score string, and the
segment assignment filled in by `segment`. -/
structure RFMRecord where
  customer_id : Nat
  recency_days : Nat
  frequency : Nat
  monetary : ℚ
  rfm_score : String
  segment_id : Nat
  segment_name : String
deriving DecidableEq

/-- Banded recency digit (most recent purchases score highest). -/
def rDigit (r : Nat) : Nat :=
  if r ≤ 7 then 5 else if r ≤ 30 then 4 else if r ≤ 90 then 3
  else if r ≤ 180 then 2 else 1

/-- Banded frequency digit. -/
def fDigit (f : Nat) : Nat :=
  if 20 ≤ f then 5 else if 10 ≤ f then 4 else if 5 ≤ f then 3
  else if 2 ≤ f then 2 else 1

/-- Banded monetary digit. -/
def mDigit (m : ℚ) : Nat :=
  if 50000 ≤ m then 5 else if 15000 ≤ m then 4 else if 5000 ≤ m then 3
  else if 1000 ≤ m then 2 else 1

/-- Modelled from the spec: `computeRFM(customers, interactions, as_of_date)`
— a pure, deterministic function of its inputs producing one RFMRecord per
listed customer from that customer's purchase events up to the as-of date. -/
def computeRFM (customers : List Nat) (interactions : List InteractionEvent)
    (as_of_date : Nat) : List RFMRecord :=
  customers.map (fun c =>
    let purchases := interactions.filter (fun e =>
      e.user_id = c ∧ e.event_type = EventType.purchase ∧ e.timestamp ≤ as_of_date)
    let lastTs := (purchases.map (fun e => e.timestamp)).foldr max 0
    let recency := as_of_date - lastTs
    let freq := purchases.length
    let money := max 0 ((purchases.map (fun e => e.weight)).sum)
    { customer_id := c, recency_days := recency, frequency := freq,
      monetary := money,
      rfm_score := toString (rDigit recency) ++ toString (fDigit freq) ++
        toString (mDigit money),
      segment_id := 0, segment_name := "" })

/-- A customer's position in (recency, frequency, monetary) space. -/
def rfmPoint (r : RFMRecord) : ℚ × ℚ × ℚ :=
  ((r.recency_days : ℚ), (r.frequency : ℚ), r.monetary)

/-- Squared euclidean distance in RFM space. -/
def dist2 (p q : ℚ × ℚ × ℚ) : ℚ :=
  (p.1 - q.1) ^ 2 + (p.2.1 - q.2.1) ^ 2 + (p.2.2 - q.2.2) ^ 2

/-- Index of the nearest center, scanning left to right (ties keep the
lowest index); helper carrying the best (index, distance) so far. -/
def nearestIdxAux (p : ℚ × ℚ × ℚ) :
    List (ℚ × ℚ × ℚ) → Nat → Nat × ℚ → Nat × ℚ
  | [], _, best => best
  | c :: rest, i, best =>
      nearestIdxAux p rest (i + 1)
        (if dist2 p c < best.2 then (i, dist2 p c) else best)

/-- Index of the nearest center (0 on an empty center list). -/
def nearestIdx (cs : List (ℚ × ℚ × ℚ)) (p : ℚ × ℚ × ℚ) : Nat :=
  match cs with
  | [] => 0
  | c :: rest => (nearestIdxAux p rest 1 (0, dist2 p c)).1

/-- Mean point of a cluster. -/
def centroid (l : List (ℚ × ℚ × ℚ)) : ℚ × ℚ × ℚ :=
  ((l.map (fun p => p.1)).sum / (l.length : ℚ),
   (l.map (fun p => p.2.1)).sum / (l.length : ℚ),
   (l.map (fun p => p.2.2)).sum / (l.length : ℚ))

/-- One K-Means update: each center moves to the centroid of its assigned
points; a center with no assigned points is kept. -/
def kmeansStep (ps : List (ℚ × ℚ × ℚ)) (cs : List (ℚ × ℚ × ℚ)) :
    List (ℚ × ℚ × ℚ) :=
  (List.range cs.length).map (fun j =>
    let asg := ps.filter (fun p => nearestIdx cs p = j)
    if asg.length = 0 then cs.getD j (0, 0, 0) else centroid asg)

/-- Deterministic fixed-round K-Means iteration. -/
def kmeansIter (ps : List (ℚ × ℚ × ℚ)) : Nat → List (ℚ × ℚ × ℚ) → List (ℚ × ℚ × ℚ)
  | 0, cs => cs
  | n + 1, cs => kmeansIter ps n (kmeansStep ps cs)

/-- First record per distinct customer id, in first-appearance order. -/
def firstPerCustomer (records : List RFMRecord) : List RFMRecord :=
  ((records.map (fun r => r.customer_id)).dedup).filterMap
    (fun cid => records.find? (fun r => r.customer_id == cid))

/-- Fixed interpretable segment labels, best cluster first. -/
def segmentLabels : List String :=
  ["Champions", "Loyal", "At Risk", "New", "Hibernating", "Lost"]

/-- Deterministic center-quality order: a center is better when its
monetary + frequency total is higher, with lower recency then lower index
as tie-breaks. -/
def centerBetter (ic jc : Nat × (ℚ × ℚ × ℚ)) : Prop :=
  jc.2.2.1 + jc.2.2.2 < ic.2.2.1 + ic.2.2.2 ∨
    (ic.2.2.1 + ic.2.2.2 = jc.2.2.1 + jc.2.2.2 ∧
      (ic.2.1 < jc.2.1 ∨ (ic.2.1 = jc.2.1 ∧ ic.1 < jc.1)))

instance : DecidableRel centerBetter := fun _a _b =>
  inferInstanceAs (Decidable (_ ∨ _))

/-- Rank of center `j`: how many centers are strictly better under the
deterministic quality order. -/
def centerRank (cs : List (ℚ × ℚ × ℚ)) (j : Nat) : Nat :=
  ((cs.enum).filter
    (fun ic => decide (centerBetter ic (j, cs.getD j (0, 0, 0))))).length

/-- Label of cluster `j`, mapped from its centroid rank, not its index. -/
def labelFor (cs : List (ℚ × ℚ × ℚ)) (j : Nat) : String :=
  segmentLabels.getD (centerRank cs j) "Segment"

/-- Number of K-Means rounds (fixed, for determinism). -/
def kmeansRounds : Nat := 10

/-- Effective cluster count: the requested k (default 6 when 0) reduced to
the number of distinct customers. -/
def effK (records : List RFMRecord) (k : Nat) : Nat :=
  min (if k = 0 then 6 else k) ((records.map (fun r => r.customer_id)).dedup).length

/-- The converged cluster centers for a segmentation run. -/
def segmentCenters (records : List RFMRecord) (k : Nat) : List (ℚ × ℚ × ℚ) :=
  let seeds := ((firstPerCustomer records).map rfmPoint).take (effK records k)
  kmeansIter (records.map rfmPoint) kmeansRounds seeds

/-- Modelled from the spec: `segment(rfm_records, k)` — K-Means in RFM space
with k reduced to the number of distinct customers on degenerate input,
centers mapped to fixed interpretable labels by centroid rank; zero
customers yield an empty sequence, not an error.  The per-record assignment
step is split out as `assignRecord`. -/
def assignRecord (cs : List (ℚ × ℚ × ℚ)) (r : RFMRecord) : RFMRecord :=
  { r with segment_id := nearestIdx cs (rfmPoint r)
         , segment_name := labelFor cs (nearestIdx cs (rfmPoint r)) }

/-- See `assignRecord` above: `segment` assigns every record to its nearest
converged center. -/
def segment (records : List RFMRecord) (k : Nat) : List RFMRecord :=
  records.map (assignRecord (segmentCenters records k))

/-! ### Frontend API client: the 401-refresh response interceptor

Embedded from src/frontend/src/lib/api.ts, lines 28-61. -/

/-- Auth store snapshot as read by `useAuthStore.getState()`. -/
structure AuthState where
  accessToken : Option String
  refreshToken : Option String
  user : Option String
deriving DecidableEq

/-- A request configuration; only the Authorization header matters to the
interceptor. -/
structure RequestConfig where
  url : String
  authHeader : Option String
deriving DecidableEq

/-- Outcome of the `axios.post(API_BASE_URL + "/auth/refresh", ...)` call:
either new tokens plus the user payload, or a thrown error. -/
inductive RefreshOutcome
  | success (access_token refresh_token user : String)
  | failure
deriving DecidableEq

/-- What the interceptor does with the error: pass the original rejection
through, or retry the (possibly updated) original request. -/
inductive InterceptOutcome
  | rejected
  | retried (req : RequestConfig)
deriving DecidableEq

/-- Observable effects and outcome of one run of the response-error
interceptor. -/
structure InterceptResult where
  loggedOut : Bool
  setAuthCalled : Option (String × String × String)
  outcome : InterceptOutcome
deriving DecidableEq

/-- The error object handed to the rejection handler: the HTTP status of the
response (when one exists) and the originating request config
(`error.config`). -/
structure AxiosErrorE where
  responseStatus : Option Nat
  config : Option RequestConfig
deriving DecidableEq

/-- The response-error interceptor of src/frontend/src/lib/api.ts: on a 401
with a request config present, a stored refresh token triggers a refresh
attempt — on success `setAuth` installs the new tokens and the original
request is retried with the new Bearer token; on failure `logout` runs and
the original error is rejected; with no stored refresh token `logout` runs
and the original error is rejected.  Anything else rejects unchanged. -/
def onResponseError (st : AuthState) (refreshResult : RefreshOutcome)
    (e : AxiosErrorE) : InterceptResult :=
  match e.responseStatus, e.config with
  | some 401, some originalRequest =>
    match st.refreshToken with
    | some _ =>
      match refreshResult with
      | .success access_token refresh_token user =>
          { loggedOut := false
          , setAuthCalled := some (user, access_token, refresh_token)
          , outcome := .retried
              { originalRequest with authHeader := some ("Bearer " ++ access_token) } }
      | .failure =>
          { loggedOut := true, setAuthCalled := none, outcome := .rejected }
    | none =>
        { loggedOut := true, setAuthCalled := none, outcome := .rejected }
  | _, _ => { loggedOut := false, setAuthCalled := none, outcome := .rejected }

/-! ### Concrete sample data -/

/-- A small concrete environment: two users, three catalog items, four
events close to the as-of time. -/
def envEx : Env :=
  { events :=
      [ { user_id := 1, item_id := 10, event_type := .purchase, weight := 5, timestamp := 95 }
      , { user_id := 1, item_id := 11, event_type := .view, weight := 1, timestamp := 96 }
      , { user_id := 2, item_id := 10, event_type := .view, weight := 1, timestamp := 97 }
      , { user_id := 2, item_id := 12, event_type := .cart, weight := 2, timestamp := 98 } ]
  , catalog := [10, 11, 12]
  , features := fun i f => (((i + f) % 3 : Nat) : ℚ)
  , featCount := 2
  , now := 100 }

/-- An environment with a ten-item catalog and a single event by user 2,
so user 7 has zero interactions. -/
def envTen : Env :=
  { events :=
      [ { user_id := 2, item_id := 3, event_type := .view, weight := 1, timestamp := 99 } ]
  , catalog := [1, 2, 3, 4, 5, 6, 7, 8, 9, 10]
  , features := fun _ _ => 0
  , featCount := 1
  , now := 100 }

/-- Two RFM records for distinct customers, used with k larger than the
number of distinct customers. -/
def rfmEx : List RFMRecord :=
  [ { customer_id := 1, recency_days := 1, frequency := 20, monetary := 50000,
      rfm_score := "555", segment_id := 0, segment_name := "" }
  , { customer_id := 2, recency_days := 200, frequency := 1, monetary := 300,
      rfm_score := "111", segment_id := 0, segment_name := "" } ]

/-- A sample request configuration for the interceptor. -/
def reqEx : RequestConfig := { url := "/orders", authHeader := some "Bearer old" }

/-- A 401 error carrying `reqEx` as its originating request. -/
def errEx : AxiosErrorE := { responseStatus := some 401, config := some reqEx }

/-- An auth state with no stored refresh token. -/
def stNoRefresh : AuthState :=
  { accessToken := some "tok", refreshToken := none, user := some "u1" }

/-- An auth state holding a refresh token. -/
def stWithRefresh : AuthState :=
  { accessToken := some "tok", refreshToken := some "ref", user := some "u1" }

/-! ### Claim theorems -/

/-- C7: `similarTo(item_id, limit)` fails with NotFoundError whenever item_id
does not exist in the catalog. -/
theorem similarTo_unknown_item_fails (cfg : RecConfig) (env : Env) (i : ItemId)
    (limit : Nat) (h : i ∉ env.catalog) :
    similarTo cfg env i limit = .error .NotFoundError := by
  unfold similarTo
  rw [if_neg h]

/-- Witness for C7: item 99 is not in the sample catalog and similarTo on it
fails with NotFoundError. -/
theorem similarTo_unknown_item_fails_witness :
    similarTo defaultRecConfig envEx 99 5 = .error .NotFoundError :=
  similarTo_unknown_item_fails defaultRecConfig envEx 99 5 (by decide)

/-- C5: segmentation is deterministic — identical customers, interactions and
as_of_date produce identical RFM records from `computeRFM`, and identical
segment assignments from `segment`, across repeated runs. -/
theorem segmentation_deterministic (cs1 cs2 : List Nat)
    (is1 is2 : List InteractionEvent) (d1 d2 k : Nat)
    (hc : cs1 = cs2) (hi : is1 = is2) (hd : d1 = d2) :
    computeRFM cs1 is1 d1 = computeRFM cs2 is2 d2 ∧
      segment (computeRFM cs1 is1 d1) k = segment (computeRFM cs2 is2 d2) k := by
  subst hc
  subst hi
  subst hd
  exact ⟨rfl, rfl⟩

/-- Witness for C5: two runs on the same concrete input agree. -/
theorem segmentation_deterministic_witness :
    computeRFM [1, 2] envEx.events 100 = computeRFM [1, 2] envEx.events 100 ∧
      segment (computeRFM [1, 2] envEx.events 100) 3 =
        segment (computeRFM [1, 2] envEx.events 100) 3 :=
  segmentation_deterministic [1, 2] [1, 2] envEx.events envEx.events 100 100 3
    rfl rfl rfl

/-- C8: every predicted_demand in a returned forecast series is ≥ 0, and a
zero horizon yields an empty series, not an error. -/
theorem forecast_nonneg_and_zero_horizon (cfg : ForecastConfig) (h : List ℚ)
    (pid hz : Nat) (s : List ForecastPoint)
    (hok : forecast cfg h pid hz = .ok s) :
    (∀ p ∈ s, 0 ≤ p.predicted_demand) ∧ forecast cfg h pid 0 = .ok [] := by
  constructor
  · intro p hp
    unfold forecast at hok
    split at hok
    · cases hok
    · split at hok
      · cases hok
        cases hp
      · split at hok
        · cases hok
        · cases hok
          rcases List.mem_map.mp hp with ⟨d, _, he⟩
          rw [← he]
          exact le_max_left 0 _
  · unfold forecast
    rw [if_neg (Nat.not_lt_zero cfg.maxHorizon), if_pos rfl]

/-- Witness for C8: a 30-day constant history with horizon 2 succeeds; its
values are nonnegative and the zero-horizon call returns the empty series. -/
theorem forecast_nonneg_and_zero_horizon_witness :
    (∀ p ∈ forecastSeries (List.replicate 30 (3 : ℚ)) 2, 0 ≤ p.predicted_demand) ∧
      forecast defaultForecastConfig (List.replicate 30 (3 : ℚ)) 1 0 = .ok [] :=
  forecast_nonneg_and_zero_horizon defaultForecastConfig
    (List.replicate 30 (3 : ℚ)) 1 2 (forecastSeries (List.replicate 30 (3 : ℚ)) 2)
    (by decide)

/-- C4 counterexample: a history shorter than the configured minimum does
not always fail with InsufficientHistoryError — with an out-of-range horizon
the horizon validation takes precedence (InvalidHorizonError), and with a
zero horizon the call succeeds with an empty series. -/
theorem forecast_short_history_not_IHE_cex :
    ([] : List ℚ).length < defaultForecastConfig.minHistory ∧
      forecast defaultForecastConfig [] 1 100 ≠ .error .InsufficientHistoryError ∧
      forecast defaultForecastConfig [] 1 0 = .ok [] := by decide

/-- C4 (amended): an out-of-range horizon always fails with
InvalidHorizonError; a positive in-range horizon with a history shorter than
the configured minimum fails with InsufficientHistoryError; in either
violation no forecast is returned. -/
theorem forecast_error_conditions (cfg : ForecastConfig) (h : List ℚ)
    (pid hz : Nat) :
    (cfg.maxHorizon < hz →
      forecast cfg h pid hz = .error .InvalidHorizonError) ∧
    (hz ≤ cfg.maxHorizon → 0 < hz → h.length < cfg.minHistory →
      forecast cfg h pid hz = .error .InsufficientHistoryError) ∧
    ((cfg.maxHorizon < hz ∨ (0 < hz ∧ h.length < cfg.minHistory)) →
      ∀ s, forecast cfg h pid hz ≠ .ok s) := by
  refine ⟨?_, ?_, ?_⟩
  · intro hlt
    unfold forecast
    rw [if_pos hlt]
  · intro hle hpos hshort
    unfold forecast
    rw [if_neg (not_lt.mpr hle), if_neg (Nat.pos_iff_ne_zero.mp hpos), if_pos hshort]
  · rintro (hlt | ⟨hpos, hshort⟩) s
    · unfold forecast
      rw [if_pos hlt]
      simp
    · by_cases hlt2 : cfg.maxHorizon < hz
      · unfold forecast
        rw [if_pos hlt2]
        simp
      · unfold forecast
        rw [if_neg hlt2, if_neg (Nat.pos_iff_ne_zero.mp hpos), if_pos hshort]
        simp

/-- Witness for C4 (amended): horizon 100 exceeds the default maximum 90 and
fails with InvalidHorizonError. -/
theorem forecast_error_conditions_witness :
    forecast defaultForecastConfig [] 1 100 = .error .InvalidHorizonError :=
  (forecast_error_conditions defaultForecastConfig [] 1 100).1 (by decide)

/-- C10: in the frontend API client's response interceptor, a 401 with no
stored refresh token, or whose refresh attempt fails, calls logout and
rejects with the error (never fabricating a success); only a successful
refresh leads to a retry of the original request, with the new access token
installed via setAuth and attached as the Bearer Authorization header. -/
theorem interceptor_401 (st : AuthState) (rr : RefreshOutcome) (e : AxiosErrorE)
    (req : RequestConfig) (h401 : e.responseStatus = some 401)
    (hcfg : e.config = some req) :
    (st.refreshToken = none → onResponseError st rr e =
      { loggedOut := true, setAuthCalled := none, outcome := .rejected }) ∧
    (∀ t, st.refreshToken = some t → rr = .failure → onResponseError st rr e =
      { loggedOut := true, setAuthCalled := none, outcome := .rejected }) ∧
    (∀ t a r u, st.refreshToken = some t → rr = .success a r u →
      onResponseError st rr e =
        { loggedOut := false, setAuthCalled := some (u, a, r),
          outcome := .retried { req with authHeader := some ("Bearer " ++ a) } }) ∧
    (∀ req', (onResponseError st rr e).outcome = .retried req' →
      st.refreshToken ≠ none ∧ ∃ a r u, rr = .success a r u ∧
        req'.authHeader = some ("Bearer " ++ a)) := by
  refine ⟨?_, ?_, ?_, ?_⟩
  · intro hnone
    simp [onResponseError, h401, hcfg, hnone]
  · intro t ht hf
    simp [onResponseError, h401, hcfg, ht, hf]
  · intro t a r u ht hs
    simp [onResponseError, h401, hcfg, ht, hs]
  · intro req' hout
    cases hrt : st.refreshToken with
    | none =>
        simp [onResponseError, h401, hcfg, hrt] at hout
    | some t =>
        cases hrr : rr with
        | failure =>
            simp [onResponseError, h401, hcfg, hrt, hrr] at hout
        | success a r u =>
            simp [onResponseError, h401, hcfg, hrt, hrr] at hout
            exact ⟨by simp [hrt], a, r, u, rfl, by rw [← hout]⟩

/-- Witness for C10: with no stored refresh token, a 401 on `reqEx` logs out
and rejects. -/
theorem interceptor_401_witness :
    onResponseError stNoRefresh .failure errEx =
      { loggedOut := true, setAuthCalled := none, outcome := .rejected } :=
  (interceptor_401 stNoRefresh .failure errEx reqEx rfl rfl).1 rfl

theorem nearestIdxAux_lt (p : ℚ × ℚ × ℚ) (l : List (ℚ × ℚ × ℚ)) (i : Nat)
    (best : Nat × ℚ) (m : Nat) (hb : best.1 < m) (hl : i + l.length ≤ m) :
    (nearestIdxAux p l i best).1 < m := by
  induction l generalizing i best with
  | nil => simpa [nearestIdxAux] using hb
  | cons c rest ih =>
      simp only [nearestIdxAux]
      apply ih
      · by_cases hd : dist2 p c < best.2
        · simp only [if_pos hd]
          simp only [List.length_cons] at hl
          omega
        · simpa [if_neg hd] using hb
      · simp only [List.length_cons] at hl
        omega

theorem nearestIdx_lt (cs : List (ℚ × ℚ × ℚ)) (p : ℚ × ℚ × ℚ) (h : cs ≠ []) :
    nearestIdx cs p < cs.length := by
  cases cs with
  | nil => exact absurd rfl h
  | cons c rest =>
      unfold nearestIdx
      have := nearestIdxAux_lt p rest 1 (0, dist2 p c) (rest.length + 1)
        (by omega) (by omega)
      simpa [List.length_cons] using this

theorem kmeansStep_length (ps cs : List (ℚ × ℚ × ℚ)) :
    (kmeansStep ps cs).length = cs.length := by
  simp [kmeansStep]

theorem kmeansIter_length (ps : List (ℚ × ℚ × ℚ)) (n : Nat)
    (cs : List (ℚ × ℚ × ℚ)) : (kmeansIter ps n cs).length = cs.length := by
  induction n generalizing cs with
  | zero => rfl
  | succ n ih => rw [kmeansIter, ih, kmeansStep_length]

theorem filterMap_length_of_isSome {α β : Type} (f : α → Option β) :
    ∀ l : List α, (∀ x ∈ l, (f x).isSome) → (l.filterMap f).length = l.length
  | [], _ => rfl
  | x :: t, h => by
      rcases Option.isSome_iff_exists.mp (h x (List.mem_cons_self x t)) with ⟨b, hb⟩
      rw [List.filterMap_cons_some hb]
      simp only [List.length_cons]
      rw [filterMap_length_of_isSome f t (fun y hy => h y (List.mem_cons_of_mem x hy))]

theorem firstPerCustomer_length (records : List RFMRecord) :
    (firstPerCustomer records).length =
      ((records.map (fun r => r.customer_id)).dedup).length := by
  unfold firstPerCustomer
  apply filterMap_length_of_isSome
  intro cid hcid
  rcases List.mem_map.mp (List.mem_dedup.mp hcid) with ⟨r, hr, he⟩
  rw [List.find?_isSome]
  exact ⟨r, hr, by simp [he]⟩

theorem assignRecord_segment_id (cs : List (ℚ × ℚ × ℚ)) (r : RFMRecord) :
    (assignRecord cs r).segment_id = nearestIdx cs (rfmPoint r) := rfl

theorem segmentCenters_length (records : List RFMRecord) (k : Nat) :
    (segmentCenters records k).length = effK records k := by
  unfold segmentCenters
  rw [kmeansIter_length, List.length_take, List.length_map,
    firstPerCustomer_length]
  unfold effK
  omega

/-- C6: `segment` succeeds on degenerate input — with fewer distinct
customers than k it reduces k to the number of distinct customers (every
assigned segment_id lies below that count) while still returning one record
per input customer, and zero customers yield an empty sequence rather than
an error. -/
theorem segment_degenerate_input (records : List RFMRecord) (k : Nat) :
    segment ([] : List RFMRecord) k = [] ∧
      (((records.map (fun r => r.customer_id)).dedup).length < k →
        (segment records k).length = records.length ∧
          ∀ r ∈ segment records k,
            r.segment_id < ((records.map (fun r => r.customer_id)).dedup).length) := by
  constructor
  · rfl
  · intro hk
    constructor
    · simp [segment]
    · intro r hr
      rcases List.mem_map.mp hr with ⟨r0, hr0, he⟩
      have hlen : (segmentCenters records k).length = effK records k :=
        segmentCenters_length records k
      have hk0 : k ≠ 0 := by omega
      have heff : effK records k =
          ((records.map (fun x => x.customer_id)).dedup).length := by
        unfold effK
        rw [if_neg hk0]
        omega
      have hd0 : 0 < ((records.map (fun x => x.customer_id)).dedup).length := by
        apply List.length_pos.mpr
        exact List.ne_nil_of_mem (List.mem_dedup.mpr (List.mem_map.mpr ⟨r0, hr0, rfl⟩))
      have hcs : segmentCenters records k ≠ [] := by
        apply List.length_pos.mp
        rw [hlen, heff]
        exact hd0
      have hb := nearestIdx_lt (segmentCenters records k) (rfmPoint r0) hcs
      rw [hlen, heff] at hb
      rw [← he, assignRecord_segment_id]
      exact hb

/-- Witness for C6: two distinct customers with k = 6 still yield one
record per customer. -/
theorem segment_degenerate_input_witness :
    (segment rfmEx 6).length = rfmEx.length :=
  ((segment_degenerate_input rfmEx 6).2 (by decide)).1

theorem mem_purchasedInWindow {cfg : RecConfig} {env : Env} {u : UserId}
    {e : InteractionEvent} (he : e ∈ env.events) (hu : e.user_id = u)
    (hp : e.event_type = EventType.purchase)
    (hw : env.now - e.timestamp ≤ cfg.exclusionWindow) :
    e.item_id ∈ purchasedInWindow cfg env u := by
  unfold purchasedInWindow recentEvents
  apply List.mem_map.mpr
  refine ⟨e, ?_, rfl⟩
  apply List.mem_filter.mpr
  refine ⟨List.mem_filter.mpr ⟨he, by simpa using hw⟩, by simp [hu, hp]⟩

/-- C3: `forUser(user_id, limit, include_reasons)` never returns an item the
user purchased within the configured exclusion window. -/
theorem forUser_excludes_recent_purchases (cfg : RecConfig) (env : Env)
    (u : UserId) (limit : Nat) (include_reasons : Bool) (e : InteractionEvent)
    (he : e ∈ env.events) (hu : e.user_id = u)
    (hp : e.event_type = EventType.purchase)
    (hw : env.now - e.timestamp ≤ cfg.exclusionWindow) :
    e.item_id ∉ (forUserWithReasons cfg env u limit include_reasons).map
      (fun r => r.item_id) := by
  intro hmem
  have hex : e.item_id ∈ purchasedInWindow cfg env u :=
    mem_purchasedInWindow he hu hp hw
  rcases List.mem_map.mp hmem with ⟨rec, hrec, hid⟩
  unfold forUserWithReasons at hrec
  rcases List.mem_map.mp hrec with ⟨p, hpmem, hpe⟩
  subst hpe
  simp only at hid
  simp only [forUser] at hpmem
  have hfil := List.mem_of_mem_take hpmem
  have hpred := List.of_mem_filter hfil
  simp only [decide_eq_true_eq] at hpred
  exact hpred (hid ▸ hex)

/-- Witness for C3: user 1 purchased item 10 within the window; item 10 is
absent from the recommendations. -/
theorem forUser_excludes_recent_purchases_witness :
    (10 : ItemId) ∉ (forUserWithReasons defaultRecConfig envEx 1 5 true).map
      (fun r => r.item_id) := by
  have h := forUser_excludes_recent_purchases defaultRecConfig envEx 1 5 true
    { user_id := 1, item_id := 10, event_type := .purchase, weight := 5, timestamp := 95 }
    (by decide) rfl rfl (by decide)
  exact h

theorem usableHistory_of_event {cfg : RecConfig} {env : Env} {u : UserId}
    {e : InteractionEvent} (he : e ∈ env.events) (hu : e.user_id = u)
    (hw : env.now - e.timestamp ≤ cfg.lookbackWindow) :
    usableHistory cfg env u = true := by
  unfold usableHistory recentEvents
  apply List.any_eq_true.mpr
  refine ⟨e, List.mem_filter.mpr ⟨he, by simpa using hw⟩, by simp [hu]⟩

theorem purchasedInWindow_eq_nil {cfg : RecConfig} {env : Env} {u : UserId}
    (hcw : cfg.exclusionWindow ≤ cfg.lookbackWindow)
    (hno : usableHistory cfg env u = false) :
    purchasedInWindow cfg env u = [] := by
  cases hpw : purchasedInWindow cfg env u with
  | nil => rfl
  | cons i t =>
      exfalso
      have hi : i ∈ purchasedInWindow cfg env u := by
        rw [hpw]
        exact List.mem_cons_self i t
      unfold purchasedInWindow recentEvents at hi
      rcases List.mem_map.mp hi with ⟨e, hef, _⟩
      rcases List.mem_filter.mp hef with ⟨hein, hup⟩
      rcases List.mem_filter.mp hein with ⟨hee, hwin⟩
      simp only [decide_eq_true_eq] at hup hwin
      have := usableHistory_of_event hee hup.1 (hwin.trans hcw)
      rw [hno] at this
      cases this

theorem effLimit_pos {cfg : RecConfig} (hcfg : WfConfig cfg) (limit : Nat) :
    0 < effLimit cfg limit := by
  obtain ⟨_, _, _, hdl, hml⟩ := hcfg
  unfold effLimit
  split
  · exact hdl
  · omega

/-- C2: for an unknown user or one without usable history, `forUser` falls
back to the global popularity ranking and never fails — the result is
non-empty whenever the catalog is non-empty, and a user with zero
interactions calling forUser with limit 10 against a catalog of at least 10
items receives exactly 10 items. -/
theorem forUser_fallback_popularity (cfg : RecConfig) (env : Env) (u : UserId)
    (limit : Nat) (hcfg : WfConfig cfg) :
    (usableHistory cfg env u = false → env.catalog ≠ [] →
      forUser cfg env u limit ≠ []) ∧
    ((∀ e ∈ env.events, e.user_id ≠ u) → 10 ≤ env.catalog.dedup.length →
      (forUser defaultRecConfig env u 10).length = 10) := by
  constructor
  · intro hno hcat
    have hexc : purchasedInWindow cfg env u = [] :=
      purchasedInWindow_eq_nil hcfg.2.2.1 hno
    simp only [forUser, hno, Bool.false_eq_true, if_false, hexc]
    apply List.ne_nil_of_length_pos
    rw [List.length_take]
    have hfil : (popularityList env).filter
        (fun p => decide (p.1 ∉ ([] : List ItemId))) = popularityList env := by
      apply List.filter_eq_self.mpr
      intro p _
      simp
    rw [hfil]
    have hlen : (popularityList env).length = env.catalog.dedup.length :=
      rankItems_length _ _
    have hpos : 0 < env.catalog.dedup.length := by
      apply List.length_pos.mpr
      simpa [List.dedup_eq_nil] using hcat
    have heff := effLimit_pos hcfg limit
    omega
  · intro hzero h10
    have hno : usableHistory defaultRecConfig env u = false := by
      unfold usableHistory recentEvents
      apply List.any_eq_false.mpr
      intro e hef
      have hee : e ∈ env.events := (List.mem_filter.mp hef).1
      simp [hzero e hee]
    have hexc : purchasedInWindow defaultRecConfig env u = [] :=
      purchasedInWindow_eq_nil (by decide) hno
    simp only [forUser, hno, Bool.false_eq_true, if_false, hexc]
    rw [List.length_take]
    have hfil : (popularityList env).filter
        (fun p => decide (p.1 ∉ ([] : List ItemId))) = popularityList env := by
      apply List.filter_eq_self.mpr
      intro p _
      simp
    rw [hfil]
    have hlen : (popularityList env).length = env.catalog.dedup.length :=
      rankItems_length _ _
    have heff : effLimit defaultRecConfig 10 = 10 := by decide
    omega

/-- Witness for C2: user 7 has no interactions in `envTen`; the fallback
returns a non-empty list, and with limit 10 over the ten-item catalog it
returns exactly 10 items. -/
theorem forUser_fallback_popularity_witness :
    (forUser defaultRecConfig envTen 7 10).length = 10 :=
  (forUser_fallback_popularity defaultRecConfig envTen 7 10 (by decide)).2
    (by decide) (by decide)

theorem lookupNbrs_map_eq (xs : List ItemId)
    (F : ItemId → List (ItemId × Score)) (i : ItemId) :
    lookupNbrs (xs.map (fun j => (j, F j))) i = [] ∨
      lookupNbrs (xs.map (fun j => (j, F j))) i = F i := by
  cases hf : (xs.map (fun j => (j, F j))).find? (fun p => p.1 == i) with
  | none => exact Or.inl (by simp [lookupNbrs, hf])
  | some pr =>
      right
      have hmem := List.mem_of_find?_eq_some hf
      have hpred := List.find?_some hf
      rcases List.mem_map.mp hmem with ⟨j, _, he⟩
      subst he
      simp only [beq_iff_eq] at hpred
      subst hpred
      simp [lookupNbrs, hf]

theorem mem_topNeighbors {cfg : RecConfig} {sim : ItemId → ItemId → Score}
    {pool : List ItemId} {i : ItemId} {p : ItemId × Score}
    (hp : p ∈ topNeighbors cfg sim pool i) : p.1 ≠ i ∧ p.2 = sim i p.1 := by
  unfold topNeighbors at hp
  have hp' := List.mem_of_mem_take hp
  rcases mem_rankItems hp' with ⟨hmem, hsc⟩
  refine ⟨?_, hsc⟩
  have hpred := List.of_mem_filter hmem
  simpa using hpred

theorem topNeighbors_scoredOK {cfg : RecConfig} {sim : ItemId → ItemId → Score}
    {pool : List ItemId} {i : ItemId}
    (hb : ∀ j, 0 ≤ sim i j ∧ sim i j ≤ 1) :
    ScoredListOK (topNeighbors cfg sim pool i) :=
  scoredListOK_take _ (scoredListOK_rankItems (fun j _ => hb j))

theorem build_collab_stored (cfg : RecConfig) (env : Env) (i : ItemId) :
    ScoredListOK (lookupNbrs (build cfg env).collab i) ∧
      ∀ p ∈ lookupNbrs (build cfg env).collab i, p.1 ≠ i := by
  have hsim : ∀ j, 0 ≤ collabSim env cfg i j ∧ collabSim env cfg i j ≤ 1 :=
    fun j => ⟨cosineSq_nonneg _ _ _, cosineSq_le_one _ _ _⟩
  have h := lookupNbrs_map_eq (eligibleItems cfg env)
    (fun j => topNeighbors cfg (collabSim env cfg) (eligibleItems cfg env) j) i
  rcases h with h | h
  · rw [show (build cfg env).collab = (eligibleItems cfg env).map
        (fun j => (j, topNeighbors cfg (collabSim env cfg) (eligibleItems cfg env) j))
      from rfl, h]
    exact ⟨⟨fun p hp => absurd hp (List.not_mem_nil p), List.nodup_nil, List.sorted_nil⟩,
      fun p hp => absurd hp (List.not_mem_nil p)⟩
  · rw [show (build cfg env).collab = (eligibleItems cfg env).map
        (fun j => (j, topNeighbors cfg (collabSim env cfg) (eligibleItems cfg env) j))
      from rfl, h]
    exact ⟨topNeighbors_scoredOK hsim, fun p hp => (mem_topNeighbors hp).1⟩

theorem build_content_stored (cfg : RecConfig) (env : Env) (i : ItemId) :
    ScoredListOK (lookupNbrs (build cfg env).content i) ∧
      ∀ p ∈ lookupNbrs (build cfg env).content i, p.1 ≠ i := by
  have hsim : ∀ j, 0 ≤ contentSim env i j ∧ contentSim env i j ≤ 1 :=
    fun j => ⟨cosineSq_nonneg _ _ _, cosineSq_le_one _ _ _⟩
  have h := lookupNbrs_map_eq env.catalog.dedup
    (fun j => topNeighbors cfg (contentSim env) env.catalog.dedup j) i
  rcases h with h | h
  · rw [show (build cfg env).content = env.catalog.dedup.map
        (fun j => (j, topNeighbors cfg (contentSim env) env.catalog.dedup j))
      from rfl, h]
    exact ⟨⟨fun p hp => absurd hp (List.not_mem_nil p), List.nodup_nil, List.sorted_nil⟩,
      fun p hp => absurd hp (List.not_mem_nil p)⟩
  · rw [show (build cfg env).content = env.catalog.dedup.map
        (fun j => (j, topNeighbors cfg (contentSim env) env.catalog.dedup j))
      from rfl, h]
    exact ⟨topNeighbors_scoredOK hsim, fun p hp => (mem_topNeighbors hp).1⟩

theorem getScore_bounds {l : List (ItemId × Score)}
    (hb : ∀ p ∈ l, 0 ≤ p.2 ∧ p.2 ≤ 1) (i : ItemId) :
    0 ≤ getScore l i ∧ getScore l i ≤ 1 := by
  unfold getScore
  cases hf : l.find? (fun p => p.1 == i) with
  | none => exact ⟨le_rfl, zero_le_one⟩
  | some p => exact hb p (List.mem_of_find?_eq_some hf)

theorem collabScore_bounds (cfg : RecConfig) (env : Env) (items : List ItemId)
    (c : ItemId) :
    0 ≤ collabScore (build cfg env) items c ∧
      collabScore (build cfg env) items c ≤ 1 := by
  refine ⟨maxScore_nonneg _, ?_⟩
  apply maxScore_le_one
  intro x hx
  rcases List.mem_map.mp hx with ⟨j, _, he⟩
  rw [← he]
  exact (getScore_bounds (build_collab_stored cfg env j).1.1 c).2

theorem contentScore_bounds (cfg : RecConfig) (env : Env) (items : List ItemId)
    (c : ItemId) :
    0 ≤ contentScore (build cfg env) items c ∧
      contentScore (build cfg env) items c ≤ 1 := by
  refine ⟨maxScore_nonneg _, ?_⟩
  apply maxScore_le_one
  intro x hx
  rcases List.mem_map.mp hx with ⟨j, _, he⟩
  rw [← he]
  exact (getScore_bounds (build_content_stored cfg env j).1.1 c).2

theorem combinedScore_bounds {cfg : RecConfig} (hcfg : WfConfig cfg)
    (env : Env) (items : List ItemId) (c : ItemId) :
    0 ≤ combinedScore cfg (build cfg env) items c ∧
      combinedScore cfg (build cfg env) items c ≤ 1 := by
  obtain ⟨hα0, hα1, _, _, _⟩ := hcfg
  have hc := collabScore_bounds cfg env items c
  have hs := contentScore_bounds cfg env items c
  exact combined_bounds hα0 hα1 hc.1 hc.2 hs.1 hs.2

theorem popularityScore_bounds (env : Env) (i : ItemId) :
    0 ≤ popularityScore env i ∧ popularityScore env i ≤ 1 := by
  unfold popularityScore
  apply div_bounds
  · exact Nat.cast_nonneg _
  · exact_mod_cast List.length_filter_le _ _

theorem decay_nonneg (cfg : RecConfig) (age : Nat) : 0 ≤ decay cfg age :=
  pow_nonneg (by norm_num) _

theorem trendingScore_bounds (cfg : RecConfig) (env : Env) (i : ItemId) :
    0 ≤ trendingScore cfg env i ∧ trendingScore cfg env i ≤ 1 := by
  simp only [trendingScore]
  apply div_bounds
  · apply List.sum_nonneg
    intro x hx
    rcases List.mem_map.mp hx with ⟨e, _, he⟩
    rw [← he]
    exact decay_nonneg cfg _
  · apply List.Sublist.sum_le_sum
    · exact (List.filter_sublist _).map _
    · intro x hx
      rcases List.mem_map.mp hx with ⟨e, _, he⟩
      rw [← he]
      exact decay_nonneg cfg _

/-- C9: for an item present in the catalog, the list returned by
`similarTo(item_id, limit)` never contains item_id itself. -/
theorem similarTo_excludes_self (cfg : RecConfig) (env : Env) (i : ItemId)
    (limit : Nat) (hin : i ∈ env.catalog) (l : List (ItemId × Score))
    (hok : similarTo cfg env i limit = .ok l) : i ∉ l.map Prod.fst := by
  intro hmem
  unfold similarTo at hok
  rw [if_pos hin] at hok
  simp only [Except.ok.injEq] at hok
  subst hok
  rcases List.mem_map.mp hmem with ⟨p, hp, hfst⟩
  have hp' := List.mem_of_mem_take hp
  rcases mem_rankItems hp' with ⟨hcand, _⟩
  rcases List.mem_append.mp hcand with hc | hc
  · rcases List.mem_map.mp hc with ⟨q, hq, he⟩
    exact (build_collab_stored cfg env i).2 q hq (he.trans hfst)
  · rcases List.mem_map.mp hc with ⟨q, hq, he⟩
    exact (build_content_stored cfg env i).2 q hq (he.trans hfst)

/-- Witness for C9: item 10 is in the sample catalog and absent from its own
similar-items list. -/
theorem similarTo_excludes_self_witness :
    (10 : ItemId) ∉
      ([(12, 8/25), (11, 2/25)] : List (ItemId × Score)).map Prod.fst :=
  similarTo_excludes_self defaultRecConfig envEx 10 5 (by decide)
    [(12, 8/25), (11, 2/25)] (by decide)

/-- C1: every operation that outputs scores — forUser, similarTo, trending,
neighbors — yields scores in [0,1] and a list deduplicated by item_id and
sorted descending by score with an ascending item_id tie-break. -/
theorem recommendation_lists_wellformed (cfg : RecConfig) (env : Env)
    (u : UserId) (limit : Nat) (i : ItemId) (k : Nat) (hcfg : WfConfig cfg) :
    ScoredListOK (forUser cfg env u limit) ∧
      (∀ l, similarTo cfg env i limit = .ok l → ScoredListOK l) ∧
      ScoredListOK (trending cfg env limit) ∧
      ScoredListOK (neighbors (build cfg env) i k) := by
  refine ⟨?_, ?_, ?_, ?_⟩
  · unfold forUser
    by_cases hu : usableHistory cfg env u
    · rw [if_pos hu]
      exact scoredListOK_take _ (scoredListOK_filter _
        (scoredListOK_rankItems (fun c _ => combinedScore_bounds hcfg env _ c)))
    · rw [if_neg hu]
      exact scoredListOK_take _ (scoredListOK_filter _
        (scoredListOK_rankItems (fun c _ => popularityScore_bounds env c)))
  · intro l hok
    unfold similarTo at hok
    by_cases hin : i ∈ env.catalog
    · rw [if_pos hin] at hok
      simp only [Except.ok.injEq] at hok
      subst hok
      apply scoredListOK_take
      apply scoredListOK_rankItems
      intro c _
      obtain ⟨hα0, hα1, _, _, _⟩ := hcfg
      have hc := getScore_bounds (build_collab_stored cfg env i).1.1 c
      have hs := getScore_bounds (build_content_stored cfg env i).1.1 c
      exact combined_bounds hα0 hα1 hc.1 hc.2 hs.1 hs.2
    · rw [if_neg hin] at hok
      cases hok
  · unfold trending
    exact scoredListOK_take _
      (scoredListOK_rankItems (fun c _ => trendingScore_bounds cfg env c))
  · unfold neighbors
    exact scoredListOK_take _ (build_collab_stored cfg env i).1

/-- Witness for C1: the default configuration is well-formed and forUser's
output on the sample environment is a well-formed scored list. -/
theorem recommendation_lists_wellformed_witness :
    ScoredListOK (forUser defaultRecConfig envEx 1 5) :=
  (recommendation_lists_wellformed defaultRecConfig envEx 1 5 10 3 (by decide)).1

end SmartRetail
